import Mathlib

/-!
Shallow embedding of the pypi-typing repository's two scripts:
`scripts/parse_pypi.py` (the typed-distribution classifier) and
`scripts/detect_projects.py` (new-package detection and issue composition).
Paths are modelled as their `pathlib` component lists; archive members,
release metadata and HTTP outcomes are explicit data.
-/

/-- Python's `str.endswith`, over character lists. -/
def strEndsWith (s suf : String) : Bool :=
  suf.toList.isSuffixOf s.toList

/-- Index of the last occurrence of a dot in a file name (`str.rfind`). -/
def lastIndexOfDot : List Char → Option Nat
  | [] => none
  | c :: cs =>
    match lastIndexOfDot cs with
    | some i => some (i + 1)
    | none => if c == '.' then some 0 else none

/-- Split a character list at every separator, as `str.split` does. -/
def splitChars (sep : Char) : List Char → List (List Char)
  | [] => [[]]
  | c :: cs =>
    match splitChars sep cs with
    | [] => [[]]
    | g :: gs => if c == sep then [] :: g :: gs else (c :: g) :: gs

/-- `pathlib.PurePath` components of a relative path: split on slashes,
dropping empty components and single dots. -/
def pathParts (s : String) : List String :=
  ((splitChars '/' s.toList).map String.mk).filter fun c => c != "" && c != "."

/-- `pathlib.PurePath.name`: the final component (empty for the empty path). -/
def pathName (p : List String) : String :=
  (p.getLast?).getD ""

/-- `pathlib.PurePath.suffix` of a file name: the part from the last dot,
provided that dot is neither the first nor the last character. -/
def name_suffix (nm : String) : String :=
  let cs := nm.toList
  match lastIndexOfDot cs with
  | some i => if 0 < i ∧ i + 1 < cs.length then String.mk (cs.drop i) else ""
  | none => ""

/-- `pathlib.PurePath.suffix` of a path. -/
def pathSuffix (p : List String) : String := name_suffix (pathName p)

/-- `pathlib.PurePath.parent`: drop the final component. -/
def pathParent (p : List String) : List String := p.dropLast

/-- `pathlib.PurePath.parents`: every proper ancestor of the path, the
archive root (the empty path) included. -/
def pathParents (p : List String) : List (List String) :=
  (List.range p.length).map fun k => p.take k

/-- One member record of a zip archive (`zipfile.ZipInfo`). -/
structure ZipInfo where
  filename : String
  file_size : Nat
deriving DecidableEq

/-- `zipfile.ZipInfo.is_dir`: the stored name ends with a slash. -/
def ZipInfo.is_dir (zi : ZipInfo) : Bool := strEndsWith zi.filename "/"

/-- One member record of a tar archive (`tarfile.TarInfo`). -/
structure TarInfo where
  name : String
  size : Nat
  isfile : Bool
deriving DecidableEq

/-- The polymorphic `source` argument of
`all_py_files_in_source_are_in_py_typed_dirs`: a zip or tar archive. -/
inductive ArchiveSource where
  | zip (infos : List ZipInfo)
  | tar (infos : List TarInfo)
deriving DecidableEq

def py_file_suffixes : List String := [ ".py", ".pyi"]

/-- The entry iteration of `all_py_files_in_source_are_in_py_typed_dirs`:
directory entries are skipped, as is any file named `__init__.py` whose
size is zero. -/
def source_entry_paths : ArchiveSource → List (List String)
  | ArchiveSource.zip infos =>
    (infos.filter fun zi =>
      !zi.is_dir &&
        !(pathName (pathParts zi.filename) == "__init__.py" && zi.file_size == 0)).map
      fun zi => pathParts zi.filename
  | ArchiveSource.tar infos =>
    (infos.filter fun ti =>
      ti.isfile &&
        !(pathName (pathParts ti.name) == "__init__.py" && ti.size == 0)).map
      fun ti => pathParts ti.name

/-- The classification loop of the scanner: a path with a Python suffix is
collected as a source file; otherwise a path named `py.typed` contributes
its parent as a typed-marker directory. -/
def scan_entries : List (List String) → List (List String) × List (List String)
  | [] => ([], [])
  | p :: rest =>
    let (dirs, files) := scan_entries rest
    if py_file_suffixes.contains (pathSuffix p) then (dirs, p :: files)
    else if pathName p == "py.typed" then (pathParent p :: dirs, files)
    else (dirs, files)

/-- `all_py_files_in_source_are_in_py_typed_dirs` from `scripts/parse_pypi.py`. -/
def all_py_files_in_source_are_in_py_typed_dirs (source : ArchiveSource) : Bool :=
  let py_typed_dirs := (scan_entries (source_entry_paths source)).1
  let all_python_files := (scan_entries (source_entry_paths source)).2
  if py_typed_dirs.isEmpty then false
  else if all_python_files.isEmpty then false
  else all_python_files.all fun path =>
    py_typed_dirs.any fun d => (pathParents path).contains d

/-- The typed-marker directories of an archive: parents of included entries
named `py.typed`. -/
def marker_directories (source : ArchiveSource) : List (List String) :=
  ((source_entry_paths source).filter fun p => pathName p == "py.typed").map pathParent

/-- The Python source files of an archive: included entries whose suffix is
`.py` or `.pyi`. -/
def python_source_files (source : ArchiveSource) : List (List String) :=
  (source_entry_paths source).filter fun p => py_file_suffixes.contains (pathSuffix p)

lemma scan_entries_eq (l : List (List String)) :
    scan_entries l =
      ((l.filter fun p =>
          !py_file_suffixes.contains (pathSuffix p) && (pathName p == "py.typed")).map pathParent,
        l.filter fun p => py_file_suffixes.contains (pathSuffix p)) := by
  induction l with
  | nil => rfl
  | cons p rest ih =>
    simp only [scan_entries, ih]
    by_cases h1 : pathSuffix p ∈ py_file_suffixes
    · simp [h1, List.filter_cons]
    · by_cases h2 : pathName p = "py.typed"
      · simp [h1, h2, List.filter_cons]
      · simp [h1, h2, List.filter_cons]

lemma py_typed_name_no_py_suffix (p : List String)
    (h : pathName p = "py.typed") :
    py_file_suffixes.contains (pathSuffix p) = false := by
  unfold pathSuffix
  rw [h]
  decide

lemma marker_filter_eq (l : List (List String)) :
    (l.filter fun p =>
        !py_file_suffixes.contains (pathSuffix p) && (pathName p == "py.typed")) =
      l.filter fun p => pathName p == "py.typed" := by
  refine List.filter_congr ?_
  intro p _
  by_cases hb : pathName p = "py.typed"
  · rw [py_typed_name_no_py_suffix p hb]
    simp [hb]
  · simp [hb]

lemma scanned_marker_dirs (source : ArchiveSource) :
    (scan_entries (source_entry_paths source)).1 = marker_directories source := by
  rw [scan_entries_eq]
  unfold marker_directories
  rw [marker_filter_eq]

lemma scanned_python_files (source : ArchiveSource) :
    (scan_entries (source_entry_paths source)).2 = python_source_files source := by
  rw [scan_entries_eq]
  rfl

lemma typed_coverage_characterization (source : ArchiveSource) :
    all_py_files_in_source_are_in_py_typed_dirs source = true ↔
      (marker_directories source ≠ [] ∧ python_source_files source ≠ [] ∧
        ∀ p ∈ python_source_files source,
          ∃ d ∈ marker_directories source, d ∈ pathParents p) := by
  unfold all_py_files_in_source_are_in_py_typed_dirs
  rw [scanned_marker_dirs, scanned_python_files]
  by_cases h1 : marker_directories source = []
  · simp [h1]
  · by_cases h2 : python_source_files source = []
    · simp [h1, h2]
    · simp [h1, h2, List.all_eq_true, List.any_eq_true]

/-- C1: the typed-coverage evaluator returns true iff the set of marker
directories (parents of included files named `py.typed`) is non-empty, the
list of Python source files is non-empty, and every source file has at
least one marker directory among its ancestors (direct parent included);
one uncovered source file makes it false. -/
theorem typed_coverage_iff (source : ArchiveSource) :
    all_py_files_in_source_are_in_py_typed_dirs source = true ↔
      (marker_directories source ≠ [] ∧ python_source_files source ≠ [] ∧
        ∀ p ∈ python_source_files source,
          ∃ d ∈ marker_directories source, d ∈ pathParents p) :=
  typed_coverage_characterization source

/-- Append one regular-file member to an archive, used to state how the
scanner treats a single added entry. -/
def addFile : ArchiveSource → String → Nat → ArchiveSource
  | ArchiveSource.zip infos, fn, sz => ArchiveSource.zip (infos ++ [⟨fn, sz⟩])
  | ArchiveSource.tar infos, fn, sz => ArchiveSource.tar (infos ++ [⟨fn, sz, true⟩])

lemma eval_congr_paths (s₁ s₂ : ArchiveSource)
    (h : source_entry_paths s₁ = source_entry_paths s₂) :
    all_py_files_in_source_are_in_py_typed_dirs s₁ =
      all_py_files_in_source_are_in_py_typed_dirs s₂ := by
  unfold all_py_files_in_source_are_in_py_typed_dirs
  rw [h]

lemma source_entry_paths_addFile (s : ArchiveSource) (fn : String) (sz : Nat)
    (hdir : strEndsWith fn "/" = false) :
    source_entry_paths (addFile s fn sz) =
      source_entry_paths s ++
        (if (pathName (pathParts fn) == "__init__.py" && sz == 0) = true then []
          else [pathParts fn]) := by
  cases s with
  | zip infos =>
    simp only [addFile, source_entry_paths, List.filter_append, List.map_append]
    congr 1
    by_cases hn : pathName (pathParts fn) = "__init__.py"
    · by_cases hz : sz = 0
      · simp [List.filter_cons, ZipInfo.is_dir, hdir, hn, hz]
      · simp [List.filter_cons, ZipInfo.is_dir, hdir, hn, hz]
    · simp [List.filter_cons, ZipInfo.is_dir, hdir, hn]
  | tar infos =>
    simp only [addFile, source_entry_paths, List.filter_append, List.map_append]
    congr 1
    by_cases hn : pathName (pathParts fn) = "__init__.py"
    · by_cases hz : sz = 0
      · simp [List.filter_cons, hn, hz]
      · simp [List.filter_cons, hn, hz]
    · simp [List.filter_cons, hn]

lemma source_entry_paths_addFile_included (s : ArchiveSource) (fn : String) (sz : Nat)
    (hdir : strEndsWith fn "/" = false)
    (hni : (pathName (pathParts fn) == "__init__.py" && sz == 0) = false) :
    source_entry_paths (addFile s fn sz) = source_entry_paths s ++ [pathParts fn] := by
  rw [source_entry_paths_addFile s fn sz hdir, hni]
  simp

lemma uncovered_added_file_fails (s : ArchiveSource) (fn : String) (sz : Nat)
    (hpaths : source_entry_paths (addFile s fn sz) = source_entry_paths s ++ [pathParts fn])
    (hnm : (pathName (pathParts fn) == "py.typed") = false)
    (hsuf : py_file_suffixes.contains (pathSuffix (pathParts fn)) = true)
    (hout : ∀ d ∈ marker_directories s, d ∉ pathParents (pathParts fn)) :
    pathParts fn ∈ python_source_files (addFile s fn sz) ∧
    all_py_files_in_source_are_in_py_typed_dirs (addFile s fn sz) = false := by
  have hmark : marker_directories (addFile s fn sz) = marker_directories s := by
    unfold marker_directories
    rw [hpaths, List.filter_append]
    simp [hnm]
  have hsuf' : pathSuffix (pathParts fn) ∈ py_file_suffixes := by
    simpa using hsuf
  have hmem : pathParts fn ∈ python_source_files (addFile s fn sz) := by
    unfold python_source_files
    rw [hpaths, List.filter_append]
    simp [hsuf']
  refine ⟨hmem, ?_⟩
  rcases Bool.eq_false_or_eq_true
      (all_py_files_in_source_are_in_py_typed_dirs (addFile s fn sz)) with h | h
  · exfalso
    obtain ⟨-, -, hall⟩ := (typed_coverage_characterization _).mp h
    obtain ⟨d, hd, hdp⟩ := hall _ hmem
    rw [hmark] at hd
    exact hout d hd hdp
  · exact h

/-- C2: during scanning a file named `__init__.py` is appended to the entry
list exactly when its size is nonzero; a zero-size one added anywhere
leaves the evaluator's result unchanged (so a covered archive stays true),
while a nonzero-size one outside every marker scope forces false. -/
theorem init_py_zero_placeholder (s : ArchiveSource) (fn : String)
    (hname : pathName (pathParts fn) = "__init__.py")
    (hdir : strEndsWith fn "/" = false) :
    (∀ sz, source_entry_paths (addFile s fn sz) =
        source_entry_paths s ++ (if sz = 0 then [] else [pathParts fn])) ∧
    all_py_files_in_source_are_in_py_typed_dirs (addFile s fn 0) =
      all_py_files_in_source_are_in_py_typed_dirs s ∧
    (∀ sz, sz ≠ 0 →
      (∀ d ∈ marker_directories s, d ∉ pathParents (pathParts fn)) →
      all_py_files_in_source_are_in_py_typed_dirs (addFile s fn sz) = false) := by
  have hpaths : ∀ sz, source_entry_paths (addFile s fn sz) =
      source_entry_paths s ++ (if sz = 0 then [] else [pathParts fn]) := by
    intro sz
    rw [source_entry_paths_addFile s fn sz hdir]
    congr 1
    by_cases hz : sz = 0
    · simp [hname, hz]
    · simp [hname, hz]
  refine ⟨hpaths, ?_, ?_⟩
  · apply eval_congr_paths
    rw [hpaths 0]
    simp
  · intro sz hsz hout
    have hnm : (pathName (pathParts fn) == "py.typed") = false := by
      rw [hname]
      decide
    have hsuf : py_file_suffixes.contains (pathSuffix (pathParts fn)) = true := by
      unfold pathSuffix
      rw [hname]
      decide
    have hp : source_entry_paths (addFile s fn sz) =
        source_entry_paths s ++ [pathParts fn] := by
      rw [hpaths sz]
      simp [hsz]
    exact (uncovered_added_file_fails s fn sz hp hnm hsuf hout).2

def initPyWitnessArchive : ArchiveSource :=
  ArchiveSource.zip [⟨ "pkg/py.typed", 0⟩, ⟨ "pkg/mod.py", 10⟩]

/-- Witness for C2 at a concrete covered archive: the zero-size root
`__init__.py` keeps the result true, the nonzero-size one makes it false. -/
theorem init_py_zero_placeholder_witness :
    all_py_files_in_source_are_in_py_typed_dirs initPyWitnessArchive = true ∧
    all_py_files_in_source_are_in_py_typed_dirs
        (addFile initPyWitnessArchive "__init__.py" 0) =
      all_py_files_in_source_are_in_py_typed_dirs initPyWitnessArchive ∧
    all_py_files_in_source_are_in_py_typed_dirs
        (addFile initPyWitnessArchive "__init__.py" 7) = false := by
  have h := init_py_zero_placeholder initPyWitnessArchive "__init__.py"
    (by decide) (by decide)
  exact ⟨by decide, h.2.1, h.2.2 7 (by decide) (by decide)⟩

/-- C10: only the exact name `__init__.py` is eligible for the zero-size
exclusion: a zero-size `__init__.pyi` is kept and classified as a Python
source file, so outside every marker scope it forces the evaluator to
false. -/
theorem init_pyi_counted_as_source (s : ArchiveSource) (fn : String)
    (hname : pathName (pathParts fn) = "__init__.pyi")
    (hdir : strEndsWith fn "/" = false)
    (hout : ∀ d ∈ marker_directories s, d ∉ pathParents (pathParts fn)) :
    pathParts fn ∈ python_source_files (addFile s fn 0) ∧
    all_py_files_in_source_are_in_py_typed_dirs (addFile s fn 0) = false := by
  have hni : (pathName (pathParts fn) == "__init__.py" && (0 : Nat) == 0) = false := by
    rw [hname]
    decide
  have hnm : (pathName (pathParts fn) == "py.typed") = false := by
    rw [hname]
    decide
  have hsuf : py_file_suffixes.contains (pathSuffix (pathParts fn)) = true := by
    unfold pathSuffix
    rw [hname]
    decide
  exact uncovered_added_file_fails s fn 0
    (source_entry_paths_addFile_included s fn 0 hdir hni) hnm hsuf hout

def initPyiWitnessArchive : ArchiveSource :=
  ArchiveSource.zip [⟨ "lib/py.typed", 0⟩, ⟨ "lib/core.py", 5⟩]

/-- Witness for C10: a covered archive plus a zero-size root `__init__.pyi`
evaluates to false. -/
theorem init_pyi_counted_as_source_witness :
    all_py_files_in_source_are_in_py_typed_dirs initPyiWitnessArchive = true ∧
    pathParts "__init__.pyi" ∈
      python_source_files (addFile initPyiWitnessArchive "__init__.pyi" 0) ∧
    all_py_files_in_source_are_in_py_typed_dirs
        (addFile initPyiWitnessArchive "__init__.pyi" 0) = false := by
  have h := init_pyi_counted_as_source initPyiWitnessArchive "__init__.pyi"
    (by decide) (by decide) (by decide)
  exact ⟨by decide, h.1, h.2⟩

/-- One release descriptor from the PyPI JSON metadata of a version. -/
structure ReleaseInfo where
  packagetype : String
  url : String
  filename : String
deriving DecidableEq

/-- `PypiReleaseDownload` from `scripts/parse_pypi.py`. -/
structure PypiReleaseDownload where
  distribution : String
  url : String
  packagetype : String
  filename : String
deriving DecidableEq

/-- The sort key of `fetch_latest_pypi_release`. -/
def is_wheel (r : ReleaseInfo) : Bool := r.packagetype == "bdist_wheel"

/-- Python's `sorted` is stable and orders the Bool key False before True:
sorting the release list ascending by the wheel key yields the non-wheel
releases in original order followed by the wheel releases in original
order. -/
def sorted_by_wheel_key (releases : List ReleaseInfo) : List ReleaseInfo :=
  (releases.filter fun r => !(is_wheel r)) ++ releases.filter is_wheel

/-- The release selection of `fetch_latest_pypi_release`: the last element
of the key-sorted release list for the latest version (`none` models the
`IndexError` on an empty list). -/
def fetch_latest_pypi_release (package : String) (releases : List ReleaseInfo) :
    Option PypiReleaseDownload :=
  ((sorted_by_wheel_key releases).getLast?).map fun release_info =>
    ⟨package, release_info.url, release_info.packagetype, release_info.filename⟩

/-- C3: for a non-empty release list whose entries are wheels or sdists,
the resolver deterministically selects a release: a wheel whenever one is
present, otherwise a source distribution. -/
theorem release_resolver_prefers_wheel (package : String)
    (releases : List ReleaseInfo) (hne : releases ≠ [])
    (hdom : ∀ r ∈ releases,
      r.packagetype = "bdist_wheel" ∨ r.packagetype = "sdist") :
    ∃ sel, fetch_latest_pypi_release package releases = some sel ∧
      sel.distribution = package ∧
      ((∃ r ∈ releases, r.packagetype = "bdist_wheel") →
        sel.packagetype = "bdist_wheel") ∧
      ((∀ r ∈ releases, r.packagetype ≠ "bdist_wheel") →
        sel.packagetype = "sdist") := by
  by_cases hw : ∃ r ∈ releases, r.packagetype = "bdist_wheel"
  · obtain ⟨r, hr, hrt⟩ := hw
    have hrw : is_wheel r = true := by simp [is_wheel, hrt]
    have hwne : releases.filter is_wheel ≠ [] :=
      List.ne_nil_of_mem (List.mem_filter.mpr ⟨hr, hrw⟩)
    cases hlast : (releases.filter is_wheel).getLast? with
    | none => exact absurd (List.getLast?_eq_none_iff.mp hlast) hwne
    | some w =>
      have hwmem : w ∈ releases.filter is_wheel := List.mem_of_mem_getLast? hlast
      have hwt : w.packagetype = "bdist_wheel" :=
        eq_of_beq (List.mem_filter.mp hwmem).2
      refine ⟨⟨package, w.url, w.packagetype, w.filename⟩, ?_, rfl, ?_, ?_⟩
      · unfold fetch_latest_pypi_release sorted_by_wheel_key
        rw [List.getLast?_append_of_ne_nil _ hwne, hlast]
        rfl
      · intro _
        exact hwt
      · intro hall
        exact absurd hrt (hall r hr)
  · push_neg at hw
    have hfw : releases.filter is_wheel = [] := by
      refine List.filter_eq_nil_iff.mpr ?_
      intro r hr
      simp [is_wheel, hw r hr]
    have hfnw : (releases.filter fun r => !(is_wheel r)) = releases := by
      refine List.filter_eq_self.mpr ?_
      intro r hr
      simp [is_wheel, hw r hr]
    cases hlast : releases.getLast? with
    | none => exact absurd (List.getLast?_eq_none_iff.mp hlast) hne
    | some w =>
      have hwmem : w ∈ releases := List.mem_of_mem_getLast? hlast
      have hwt : w.packagetype = "sdist" :=
        (hdom w hwmem).resolve_left (hw w hwmem)
      refine ⟨⟨package, w.url, w.packagetype, w.filename⟩, ?_, rfl, ?_, ?_⟩
      · unfold fetch_latest_pypi_release sorted_by_wheel_key
        rw [hfw, hfnw, List.append_nil, hlast]
        rfl
      · intro hex
        obtain ⟨r, hr, hrt⟩ := hex
        exact absurd hrt (hw r hr)
      · intro _
        exact hwt

def sdistRelease : ReleaseInfo := ⟨ "sdist", "u1", "pkg-1.0.tar.gz"⟩

def wheelRelease : ReleaseInfo := ⟨ "bdist_wheel", "u2", "pkg-1.0-py3-none-any.whl"⟩

/-- Witness for C3 at the two release lists of the claim: sdist+wheel
selects the wheel, sdist alone selects the sdist. -/
theorem release_resolver_prefers_wheel_witness :
    (∃ sel, fetch_latest_pypi_release "pkg" [sdistRelease, wheelRelease] = some sel ∧
      sel.packagetype = "bdist_wheel") ∧
    (∃ sel, fetch_latest_pypi_release "pkg" [sdistRelease] = some sel ∧
      sel.packagetype = "sdist") := by
  obtain ⟨s1, h1, -, hw1, -⟩ := release_resolver_prefers_wheel "pkg"
    [sdistRelease, wheelRelease] (by decide) (by decide)
  obtain ⟨s2, h2, -, -, hs2⟩ := release_resolver_prefers_wheel "pkg"
    [sdistRelease] (by decide) (by decide)
  exact ⟨⟨s1, h1, hw1 ⟨wheelRelease, by decide, by decide⟩⟩,
    ⟨s2, h2, hs2 (by decide)⟩⟩

/-- Which archive reader scans the downloaded artifact. -/
inductive ArchivePath where
  | zipPath
  | tarPath
deriving DecidableEq

/-- The post-download dispatch of `release_contains_py_typed`: wheels are
read as zip archives after an assertion on the `.whl` suffix; sdists are
read as tar or zip archives by filename suffix; anything else raises an
`AssertionError` (modelled as `Except.error`). -/
def release_scan_dispatch (packagetype filename : String) :
    Except String ArchivePath :=
  if packagetype == "bdist_wheel" then
    if strEndsWith filename ".whl" then Except.ok ArchivePath.zipPath
    else Except.error "AssertionError"
  else if packagetype == "sdist" then
    if strEndsWith filename ".tar.gz" then Except.ok ArchivePath.tarPath
    else if strEndsWith filename ".zip" then Except.ok ArchivePath.zipPath
    else Except.error
      ("Package file " ++ filename ++ " does not end with .tar.gz or .zip")
  else Except.error ("Unknown package type: " ++ packagetype)

lemma zip_suffix_excludes_targz (fn : String)
    (h : strEndsWith fn ".zip" = true) : strEndsWith fn ".tar.gz" = false := by
  unfold strEndsWith at h ⊢
  rcases Bool.eq_false_or_eq_true
      ((String.toList ".tar.gz").isSuffixOf fn.toList) with ht | hf
  · exfalso
    have h1 := List.isSuffixOf_iff_suffix.mp h
    have h2 := List.isSuffixOf_iff_suffix.mp ht
    rcases List.suffix_or_suffix_of_suffix h1 h2 with hs | hs
    · have hn : ¬(String.toList ".zip" <:+ String.toList ".tar.gz") := by decide
      exact hn hs
    · have hn : ¬(String.toList ".tar.gz" <:+ String.toList ".zip") := by decide
      exact hn hs
  · exact hf

/-- C4: dispatch of the scanning step — a wheel with the `.whl` suffix and
a `.zip`-suffixed sdist are scanned as zip archives, a `.tar.gz`-suffixed
sdist as a tar archive, and every artifact whose filename ends in none of
the recognized suffixes yields a fatal format error. -/
theorem scan_dispatch_by_suffix :
    (∀ fn, strEndsWith fn ".whl" = true →
      release_scan_dispatch "bdist_wheel" fn = Except.ok ArchivePath.zipPath) ∧
    (∀ fn, strEndsWith fn ".tar.gz" = true →
      release_scan_dispatch "sdist" fn = Except.ok ArchivePath.tarPath) ∧
    (∀ fn, strEndsWith fn ".zip" = true →
      release_scan_dispatch "sdist" fn = Except.ok ArchivePath.zipPath) ∧
    (∀ packagetype fn, strEndsWith fn ".whl" = false →
      strEndsWith fn ".tar.gz" = false → strEndsWith fn ".zip" = false →
      ∃ e, release_scan_dispatch packagetype fn = Except.error e) := by
  refine ⟨?_, ?_, ?_, ?_⟩
  · intro fn h
    simp [release_scan_dispatch, h]
  · intro fn h
    simp [release_scan_dispatch, h]
  · intro fn h
    have ht := zip_suffix_excludes_targz fn h
    simp [release_scan_dispatch, h, ht]
  · intro pt fn h1 h2 h3
    by_cases hwp : pt = "bdist_wheel"
    · exact ⟨ "AssertionError", by simp [release_scan_dispatch, hwp, h1]⟩
    · by_cases hsp : pt = "sdist"
      · exact ⟨ "Package file " ++ fn ++ " does not end with .tar.gz or .zip",
          by simp [release_scan_dispatch, hwp, hsp, h2, h3]⟩
      · exact ⟨ "Unknown package type: " ++ pt,
          by simp [release_scan_dispatch, hwp, hsp]⟩

/-- Witness for C4 at concrete artifacts, one per dispatch branch and one
unrecognized suffix. -/
theorem scan_dispatch_by_suffix_witness :
    release_scan_dispatch "bdist_wheel" "pkg-1.0-py3-none-any.whl" =
      Except.ok ArchivePath.zipPath ∧
    release_scan_dispatch "sdist" "pkg-1.0.tar.gz" =
      Except.ok ArchivePath.tarPath ∧
    release_scan_dispatch "sdist" "pkg-1.0.zip" =
      Except.ok ArchivePath.zipPath ∧
    ∃ e, release_scan_dispatch "sdist" "pkg-1.0.tar.bz2" = Except.error e := by
  refine ⟨?_, ?_, ?_, ?_⟩
  · exact scan_dispatch_by_suffix.1 "pkg-1.0-py3-none-any.whl" (by decide)
  · exact scan_dispatch_by_suffix.2.1 "pkg-1.0.tar.gz" (by decide)
  · exact scan_dispatch_by_suffix.2.2.1 "pkg-1.0.zip" (by decide)
  · exact scan_dispatch_by_suffix.2.2.2 "sdist" "pkg-1.0.tar.bz2"
      (by decide) (by decide) (by decide)

/-- Outcome of the HTTP GET issued when checking for a stub distribution:
a status code, or a transport exception caught by the handler. -/
inductive StubLookupResponse where
  | status (code : Nat)
  | failure (msg : String)
deriving DecidableEq

/-- The stub distribution name queried by `has_types_stub_package`. -/
def stub_package_name (package : String) : String := "types-" ++ package

/-- `has_types_stub_package` from `scripts/parse_pypi.py`, as a function of
the response received for `types-<package>`: 200 means the stub exists,
404 means it is absent, any other status or a transport error is unknown
(`none`); no branch raises. -/
def has_types_stub_package (resp : StubLookupResponse) : Option Bool :=
  match resp with
  | StubLookupResponse.status code =>
    if code == 200 then some true
    else if code == 404 then some false
    else none
  | StubLookupResponse.failure _ => none

/-- One row of the output table `pypi-packages-typing.csv`. -/
structure OutputRow where
  package : String
  has_py_typed : Bool
  has_types_package : Option Bool
deriving DecidableEq

/-- Environment of one per-package task: the outcome of the bundled-typing
classification (which may raise) and the stub-lookup value used when the
bundled result is false (the lookup itself never raises). -/
structure PackageEnv where
  typedResult : Except String Bool
  stubResult : Option Bool

/-- `process_package` from `scripts/parse_pypi.py`, as a transformer of the
output table: an error at any step is logged and appends no row; otherwise
one row is appended, with the stub column filled only when the bundled
result is false. -/
def process_package (pkg : String) (env : PackageEnv)
    (table : List OutputRow) : List OutputRow :=
  match env.typedResult with
  | Except.error _ => table
  | Except.ok hpt =>
    table ++ [⟨pkg, hpt, if hpt then none else env.stubResult⟩]

/-- C5: the stub lookup queries `types-<package>` and maps HTTP 200 to
"exists", 404 to "absent", and any other status or transport error to
"unknown"; a package whose bundled-typing scan returned false records
exactly this value and is never failed by the lookup. -/
theorem stub_lookup_status_mapping (package : String)
    (resp : StubLookupResponse) :
    stub_package_name package = "types-" ++ package ∧
    (has_types_stub_package resp = some true ↔
      resp = StubLookupResponse.status 200) ∧
    (has_types_stub_package resp = some false ↔
      resp = StubLookupResponse.status 404) ∧
    (has_types_stub_package resp = none ↔
      ((∃ code, resp = StubLookupResponse.status code ∧
          code ≠ 200 ∧ code ≠ 404) ∨
        ∃ msg, resp = StubLookupResponse.failure msg)) ∧
    (∀ pkg table, process_package pkg ⟨Except.ok false, has_types_stub_package resp⟩ table =
      table ++ [⟨pkg, false, has_types_stub_package resp⟩]) := by
  refine ⟨rfl, ?_, ?_, ?_, ?_⟩
  · constructor
    · intro h
      cases resp with
      | status code =>
        by_cases h200 : code = 200
        · rw [h200]
        · by_cases h404 : code = 404 <;>
            simp [has_types_stub_package, h200, h404] at h
      | failure msg => simp [has_types_stub_package] at h
    · intro h
      rw [h]
      rfl
  · constructor
    · intro h
      cases resp with
      | status code =>
        by_cases h200 : code = 200
        · simp [has_types_stub_package, h200] at h
        · by_cases h404 : code = 404
          · rw [h404]
          · simp [has_types_stub_package, h200, h404] at h
      | failure msg => simp [has_types_stub_package] at h
    · intro h
      rw [h]
      rfl
  · constructor
    · intro h
      cases resp with
      | status code =>
        by_cases h200 : code = 200
        · simp [has_types_stub_package, h200] at h
        · by_cases h404 : code = 404
          · simp [has_types_stub_package, h200, h404] at h
          · exact Or.inl ⟨code, rfl, h200, h404⟩
      | failure msg => exact Or.inr ⟨msg, rfl⟩
    · intro h
      rcases h with ⟨code, hc, h200, h404⟩ | ⟨msg, hm⟩
      · rw [hc]
        simp [has_types_stub_package, h200, h404]
      · rw [hm]
        rfl
  · intro pkg table
    rfl

/-- `load_processed_packages` from `scripts/parse_pypi.py`: the set of
package names already present in the output table, read once up front. -/
def load_processed_packages (table : List OutputRow) : List String :=
  table.map OutputRow.package

/-- The packages `main` creates a task for: input packages not already in
the pre-loaded processed set. -/
def scheduled_packages (packages : List String) (table : List OutputRow) :
    List String :=
  packages.filter fun p => !((load_processed_packages table).contains p)

/-- The per-package tasks of one run, applied to the output table (the
model fixes one completion order; the append of each task is atomic). -/
def run_tasks (env : String → PackageEnv) (pkgs : List String)
    (table : List OutputRow) : List OutputRow :=
  pkgs.foldl (fun t pkg => process_package pkg (env pkg) t) table

/-- `main` from `scripts/parse_pypi.py`: load the processed set once, then
run one task per not-yet-processed package. -/
def main_run (packages : List String) (table : List OutputRow)
    (env : String → PackageEnv) : List OutputRow :=
  run_tasks env (scheduled_packages packages table) table

/-- C6: a package whose classification raises writes no output row, and
removing it from the schedule changes nothing for its siblings — the error
is contained at the package-task boundary and the batch completes. -/
theorem failed_package_isolated (pkgs₁ pkgs₂ : List String) (p : String)
    (env : String → PackageEnv) (table : List OutputRow) (e : String)
    (hfail : (env p).typedResult = Except.error e) :
    process_package p (env p) table = table ∧
    run_tasks env (pkgs₁ ++ p :: pkgs₂) table =
      run_tasks env (pkgs₁ ++ pkgs₂) table := by
  have hstep : ∀ t, process_package p (env p) t = t := by
    intro t
    unfold process_package
    rw [hfail]
  refine ⟨hstep table, ?_⟩
  unfold run_tasks
  rw [List.foldl_append, List.foldl_append, List.foldl_cons, hstep]

def failEnv : String → PackageEnv := fun pkg =>
  if pkg == "badpkg" then ⟨Except.error "boom", none⟩
  else ⟨Except.ok true, none⟩

/-- Witness for C6: with a concrete failing package between two healthy
ones, the failing task appends nothing and the batch result equals the
run without it. -/
theorem failed_package_isolated_witness :
    process_package "badpkg" (failEnv "badpkg") [] = [] ∧
    run_tasks failEnv [ "aaa", "badpkg", "zzz"] [] =
      run_tasks failEnv [ "aaa", "zzz"] [] := by
  exact failed_package_isolated [ "aaa"] [ "zzz"] "badpkg" failEnv [] "boom" rfl

/-- C7: a package already present in the pre-loaded output table is never
scheduled (so no network request is issued for it), and the run appends no
further row for it: its rows in the output table are exactly its rows in
the input table. -/
theorem processed_package_skipped (packages : List String)
    (table : List OutputRow) (env : String → PackageEnv) (p : String)
    (hp : p ∈ load_processed_packages table) :
    p ∉ scheduled_packages packages table ∧
    (main_run packages table env).filter (fun r => r.package == p) =
      table.filter (fun r => r.package == p) := by
  have hsched : p ∉ scheduled_packages packages table := by
    intro hmem
    have h2 := (List.mem_filter.mp hmem).2
    have h3 : (load_processed_packages table).contains p = true :=
      List.elem_iff.mpr hp
    rw [h3] at h2
    exact absurd h2 (by decide)
  refine ⟨hsched, ?_⟩
  unfold main_run
  have hgen : ∀ (pkgs : List String) (t : List OutputRow), p ∉ pkgs →
      (run_tasks env pkgs t).filter (fun r => r.package == p) =
        t.filter (fun r => r.package == p) := by
    intro pkgs
    induction pkgs with
    | nil => intro t _; rfl
    | cons q rest ih =>
      intro t hq
      have hqp : q ≠ p := fun h => hq (h ▸ List.mem_cons_self q rest)
      have hstep : (process_package q (env q) t).filter (fun r => r.package == p) =
          t.filter (fun r => r.package == p) := by
        unfold process_package
        cases henv : (env q).typedResult with
        | error e => rfl
        | ok b =>
          rw [List.filter_append]
          simp [hqp]
      calc (run_tasks env (q :: rest) t).filter (fun r => r.package == p)
          = (run_tasks env rest (process_package q (env q) t)).filter
              (fun r => r.package == p) := rfl
        _ = (process_package q (env q) t).filter (fun r => r.package == p) :=
            ih _ (fun hm => hq (List.mem_cons_of_mem q hm))
        _ = t.filter (fun r => r.package == p) := hstep
  exact hgen _ table hsched

def preloadedTable : List OutputRow :=
  [⟨ "adone", true, none⟩, ⟨ "bdone", false, some true⟩]

def healthyEnv : String → PackageEnv := fun _ => ⟨Except.ok true, none⟩

/-- Witness for C7: a pre-populated table with a row for package `adone`
is left with exactly that row for `adone` after a run over an input list
that contains `adone`, which is not scheduled. -/
theorem processed_package_skipped_witness :
    "adone" ∉ scheduled_packages [ "adone", "newpkg"] preloadedTable ∧
    (main_run [ "adone", "newpkg"] preloadedTable healthyEnv).filter
        (fun r => r.package == "adone") =
      preloadedTable.filter (fun r => r.package == "adone") := by
  exact processed_package_skipped [ "adone", "newpkg"] preloadedTable healthyEnv
    "adone" (by decide)

/-- `NON_EXISTENT_PROJECTS` from `scripts/detect_projects.py`. -/
def NON_EXISTENT_PROJECTS : Finset String := { "aaaaaaaaa", "pyairports"}

/-- The set difference computed by `main` in `scripts/detect_projects.py`,
parameterized by the exclusion set. -/
def new_packages (original localPkgs excluded : Finset String) :
    Finset String :=
  (original \ localPkgs) \ excluded

/-- `main` from `scripts/detect_projects.py`: an issue is created or
updated exactly when the difference is non-empty; `some` carries the
reported package set. -/
def detect_main (original localPkgs : Finset String) : Option (Finset String) :=
  let np := new_packages original localPkgs NON_EXISTENT_PROJECTS
  if np = ∅ then none else some np

/-- C8: the reported new packages are exactly the remote set minus the
local set minus the exclusion set, an issue is filed only when this
difference is non-empty, and with remote a,b,c, local a, exclusion c only
b remains. -/
theorem new_package_detection :
    (∀ (original localPkgs excluded : Finset String) (x : String),
      x ∈ new_packages original localPkgs excluded ↔
        x ∈ original ∧ x ∉ localPkgs ∧ x ∉ excluded) ∧
    new_packages { "a", "b", "c"} { "a"} { "c"} = { "b"} ∧
    (∀ original localPkgs, detect_main original localPkgs ≠ none ↔
      new_packages original localPkgs NON_EXISTENT_PROJECTS ≠ ∅) := by
  refine ⟨?_, ?_, ?_⟩
  · intro o l e x
    simp only [new_packages, Finset.mem_sdiff]
    tauto
  · decide
  · intro o l
    unfold detect_main
    by_cases h : new_packages o l NON_EXISTENT_PROJECTS = ∅
    · simp [h]
    · simp [h]

/-- The issue-body header of `create_or_update_issue`. -/
def issue_header (count : Nat) : String :=
  toString count ++ " new package" ++ (if count ≠ 1 then "s" else "") ++
    " were found  in [top-pypi-packages](https://github.com/hugovk/top-pypi-packages/blob/main/top-pypi-packages.csv) that are missing from our dataset.\n\n"

/-- The issue body composed by `create_or_update_issue`: header, one line
per displayed package (the first 20 of the sorted names), then an overflow
line when more packages were found than displayed. -/
def issue_body (packages : Finset String) : String :=
  let max_display := 20
  let count := packages.card
  let sorted_packages := packages.sort (· ≤ ·)
  let displayed := sorted_packages.take max_display
  let hidden_count : Int := (count : Int) - (max_display : Int)
  let body := issue_header count ++
    String.join (displayed.map fun pkg => "- " ++ pkg ++ "\n")
  if 0 < hidden_count then
    body ++ "\n... and " ++ toString hidden_count ++ " more."
  else body

/-- C9: with more than 20 discovered packages the body lists exactly the
first 20 names in ascending order followed by the overflow line naming the
remaining count; the displayed block has length 20, is sorted, and every
displayed name precedes every hidden one; with at most 20 packages no
overflow line is emitted. -/
theorem issue_body_composition (packages : Finset String) :
    (20 < packages.card →
      issue_body packages =
        issue_header packages.card ++
          String.join (((packages.sort (· ≤ ·)).take 20).map
            fun pkg => "- " ++ pkg ++ "\n") ++
          "\n... and " ++ toString ((packages.card : Int) - 20) ++ " more." ∧
      ((packages.sort (· ≤ ·)).take 20).length = 20 ∧
      List.Sorted (· ≤ ·) ((packages.sort (· ≤ ·)).take 20) ∧
      ∀ a ∈ (packages.sort (· ≤ ·)).take 20, ∀ b ∈ packages,
        b ∉ (packages.sort (· ≤ ·)).take 20 → a ≤ b) ∧
    (packages.card ≤ 20 →
      issue_body packages =
        issue_header packages.card ++
          String.join ((packages.sort (· ≤ ·)).map
            fun pkg => "- " ++ pkg ++ "\n")) := by
  constructor
  · intro h
    have hpos : (0 : Int) < (packages.card : Int) - 20 := by omega
    refine ⟨?_, ?_, ?_, ?_⟩
    · simp only [issue_body, Nat.cast_ofNat]
      rw [if_pos hpos]
    · rw [List.length_take, Finset.length_sort]
      omega
    · exact List.Pairwise.sublist (List.take_sublist 20 _)
        (Finset.sort_sorted (· ≤ ·) packages)
    · intro a ha b hb hbn
      have hsort := Finset.sort_sorted (· ≤ ·) packages
      have hbmem : b ∈ packages.sort (· ≤ ·) := (Finset.mem_sort _).mpr hb
      rw [← List.take_append_drop 20 (packages.sort (· ≤ ·))] at hbmem
      rcases List.mem_append.mp hbmem with hbt | hbd
      · exact absurd hbt hbn
      · have hp : List.Pairwise (· ≤ ·)
            ((packages.sort (· ≤ ·)).take 20 ++ (packages.sort (· ≤ ·)).drop 20) := by
          rw [List.take_append_drop]
          exact hsort
        exact (List.pairwise_append.mp hp).2.2 a ha b hbd
  · intro h
    have hnpos : ¬((0 : Int) < (packages.card : Int) - 20) := by omega
    simp only [issue_body, Nat.cast_ofNat]
    rw [if_neg hnpos, List.take_of_length_le]
    rw [Finset.length_sort]
    exact h

def bigPackageSet : Finset String :=
  { "a", "b", "c", "d", "e", "f", "g", "h", "i", "j", "k", "l", "m",
    "n", "o", "p", "q", "r", "s", "t", "u", "v", "w", "x", "y"}

def smallPackageSet : Finset String := { "z1"}

/-- Witness for C9 at a 25-package set (overflow of 5) and a singleton
set (no overflow). -/
theorem issue_body_composition_witness :
    (issue_body bigPackageSet =
      issue_header bigPackageSet.card ++
        String.join (((bigPackageSet.sort (· ≤ ·)).take 20).map
          fun pkg => "- " ++ pkg ++ "\n") ++
        "\n... and " ++ toString ((bigPackageSet.card : Int) - 20) ++ " more.") ∧
    issue_body smallPackageSet =
      issue_header smallPackageSet.card ++
        String.join ((smallPackageSet.sort (· ≤ ·)).map
          fun pkg => "- " ++ pkg ++ "\n") := by
  exact ⟨((issue_body_composition bigPackageSet).1 (by decide)).1,
    (issue_body_composition smallPackageSet).2 (by decide)⟩
